import Mathlib

/-!
A shallow embedding of the per-guild music player of this repository
(`src/utils/player.py` together with the constants of `src/config.py`),
and proofs of the specified properties of its queue/history state machine.

Modelling conventions:
* Python `deque(maxlen=n)` is a `List` together with the three capped
  operations `dequeAppend`, `dequeAppendLeft` and `dequeOfList` below,
  which reproduce CPython's eviction behaviour (append evicts at the
  left, appendleft evicts at the right, construction keeps the last `n`).
* The Python `set` `autoplay_history` is a duplicate-free `List String`:
  `set.add` is `setAdd` (no-op when present, otherwise append) and
  `set.pop`, which removes an arbitrary element of an unordered set, is
  determinised as `setPop` (remove the first element); every property
  proved about it depends only on size and membership, not on which
  element eviction removes.
* External collaborators (yt-dlp search, the AI recommender) are pure
  oracles: their raw results are passed in as data (`AutoInput`), and the
  player's own filtering/acceptance logic is translated from the source.
  The collaborators themselves catch their exceptions and degrade to
  empty results, so a total function is a faithful model of the call.
* `discord.Member` is opaque; a requester is modelled as `Option Nat`.
-/

namespace DiscordMusicBot

/-- `config.py`: `MAX_QUEUE_SIZE = 100`. -/
def MAX_QUEUE_SIZE : Nat := 100

/-- `config.py`: `AUTOPLAY_MAX_HISTORY = 20`. -/
def AUTOPLAY_MAX_HISTORY : Nat := 20

/-- `config.py`: `AUTOPLAY_ENABLED = True`. -/
def AUTOPLAY_ENABLED : Bool := true

/-- `player.py`: `history: deque[Song] = deque(maxlen=50)`. -/
def HISTORY_MAXLEN : Nat := 50

/-- The `Song` dataclass of `player.py` (the derived `duration_str` view is
omitted; `requester: Optional[discord.Member]` is an opaque user id). -/
structure Song where
  title : String
  url : String
  stream_url : String
  duration : Nat
  thumbnail : Option String := none
  requester : Option Nat := none
  deriving Repr, DecidableEq

/-- One entry of a yt-dlp search result as the player consumes it: the
dictionary fields read by `_get_autoplay_songs` / `search_similar_songs`.
`id` is `Option` because `entry.get('id')` may be absent (`None`). -/
structure Video where
  id : Option String
  title : String
  url : String
  duration : Nat
  thumbnail : Option String := none
  deriving Repr, DecidableEq

/-- `deque.append` with a `maxlen`: when the deque is full the oldest
(leftmost) entries are evicted to make room. -/
def dequeAppend {α : Type} (maxlen : Nat) (q : List α) (x : α) : List α :=
  if q.length < maxlen then q ++ [x]
  else (q.drop (q.length + 1 - maxlen)) ++ [x]

/-- `deque.appendleft` with a `maxlen`: when the deque is full the newest
(rightmost) entries are evicted to make room. -/
def dequeAppendLeft {α : Type} (maxlen : Nat) (x : α) (q : List α) : List α :=
  if q.length < maxlen then x :: q
  else x :: q.take (maxlen - 1)

/-- `deque(iterable, maxlen=n)` keeps the last `n` items of the iterable. -/
def dequeOfList {α : Type} (maxlen : Nat) (l : List α) : List α :=
  l.drop (l.length - maxlen)

/-- `set.add`: no-op when the element is present, otherwise insert. -/
def setAdd (h : List String) (i : String) : List String :=
  if i ∈ h then h else h ++ [i]

/-- `set.pop`: removes an arbitrary element from a non-empty unordered
set; determinised as removing the first element. -/
def setPop (h : List String) : List String := h.tail

/-- The mutable state of `MusicPlayer.__init__` (`bot`, `guild`, `volume`
and `_task` carry no queue semantics and are omitted). -/
structure MusicPlayer where
  queue : List Song
  history : List Song
  current : Option Song
  loop_mode : Nat
  is_playing : Bool
  autoplay : Bool
  autoplay_history : List String
  last_autoplay_song : Option Song
  deriving Repr, DecidableEq

namespace MusicPlayer

/-- The freshly-constructed player state of `MusicPlayer.__init__`. -/
def init : MusicPlayer where
  queue := []
  history := []
  current := none
  loop_mode := 0
  is_playing := false
  autoplay := AUTOPLAY_ENABLED
  autoplay_history := []
  last_autoplay_song := none

/-- `add_to_queue`: `self.queue.append(song); return len(self.queue)`. -/
def add_to_queue (song : Song) (st : MusicPlayer) : Nat × MusicPlayer :=
  let q := dequeAppend MAX_QUEUE_SIZE st.queue song
  (q.length, { st with queue := q })

/-- `clear_queue`: `self.queue.clear()`. -/
def clear_queue (st : MusicPlayer) : MusicPlayer :=
  { st with queue := [] }

/-- `previous`: fail on empty history; otherwise push `current` (if any)
then the popped last history entry onto the queue front, return `True`.
(The `voice_client.stop()` call only signals the sink.) -/
def previous (st : MusicPlayer) : Bool × MusicPlayer :=
  match st.history.getLast? with
  | none => (false, st)
  | some prev_song =>
    let q1 := match st.current with
      | some c => dequeAppendLeft MAX_QUEUE_SIZE c st.queue
      | none => st.queue
    (true, { st with queue := dequeAppendLeft MAX_QUEUE_SIZE prev_song q1,
                     history := st.history.dropLast })

/-- `shuffle`: `random.shuffle` permutes the queue in place and the result
is rebuilt as `deque(queue_list, maxlen=MAX_QUEUE_SIZE)`.  The permuted
list is supplied as data (an over-approximation of the randomness). -/
def shuffle (shuffled : List Song) (st : MusicPlayer) : MusicPlayer :=
  { st with queue := dequeOfList MAX_QUEUE_SIZE shuffled }

/-- `stop`: clear queue, history and autoplay history, reset `current`,
`is_playing`, `loop_mode` and `last_autoplay_song` (the voice-client
disconnect is external; `self.autoplay` is not touched). -/
def stop (st : MusicPlayer) : MusicPlayer where
  queue := []
  history := []
  current := none
  loop_mode := 0
  is_playing := false
  autoplay := st.autoplay
  autoplay_history := []
  last_autoplay_song := none

end MusicPlayer

/-- A character allowed in a YouTube video id (the class `[a-zA-Z0-9_-]`
of the patterns in `_extract_video_id`). -/
def vidChar (c : Char) : Bool :=
  c.isAlpha || c.isDigit || c = '_' || c = '-'

/-- Matching `([a-zA-Z0-9_-]{11})` at the head of a character list:
succeeds when at least 11 id characters follow, capturing the first 11. -/
def take11 (cs : List Char) : Option String :=
  let pre := (cs.takeWhile vidChar).take 11
  if pre.length = 11 then some (String.mk pre) else none

/-- Try one literal marker of `_extract_video_id` at the head of `cs`,
followed by the 11-character id group. -/
def matchMarkerAt (cs marker : List Char) : Option String :=
  if cs.take marker.length = marker then take11 (cs.drop marker.length) else none

/-- `re.search` over the alternation of the given markers: leftmost
position wins, alternatives tried in order at each position. -/
def searchMarkers : List Char → List (List Char) → Option String
  | [], _ => none
  | c :: rest, markers =>
    match markers.findSome? (matchMarkerAt (c :: rest)) with
    | some r => some r
    | none => searchMarkers rest markers

/-- `_extract_video_id`: the first pattern
`(?:youtube.com/watch?v=|youtu.be/)([a-zA-Z0-9_-]{11})` is tried on the
whole URL, then the `youtube.com/embed/` pattern. -/
def extract_video_id (url : String) : Option String :=
  match searchMarkers url.data
      [String.data "youtube.com/watch?v=", String.data "youtu.be/"] with
  | some i => some i
  | none => searchMarkers url.data [String.data "youtube.com/embed/"]

/-- The oracle data consumed by one `play_next` iteration: whether the AI
recommender is enabled, the yt-dlp search result for each AI-recommended
query (`_search_youtube`), and the raw entries of the fallback
`search_similar_songs` search.  The collaborators catch their own
exceptions and return empty lists, so plain data is a faithful model. -/
structure AutoInput where
  aiEnabled : Bool
  aiResults : List (List Video)
  fallbackEntries : List Video
  deriving Repr, DecidableEq

/-- The result filtering of `YTDLSource.search_similar_songs`: an entry is
kept when its id is truthy and not in `exclude_ids` (the query-string
normalisation only shapes the external search and is not state). -/
def search_similar_songs (exclude_ids : List String) (entries : List Video) :
    List Video :=
  entries.filter fun v =>
    match v.id with
    | some i => decide (i ≠ "" ∧ i ∉ exclude_ids)
    | none => false

namespace MusicPlayer

/-- The acceptance loop shared by both tiers of `_get_autoplay_songs`: a
candidate is accepted when its id is truthy and not yet in
`autoplay_history`, and its id is recorded immediately (`set.add`). -/
def acceptFresh : List Video → List String → List Video × List String
  | [], hist => ([], hist)
  | v :: rest, hist =>
    match v.id with
    | some i =>
      if i ≠ "" ∧ i ∉ hist then
        let r := acceptFresh rest (setAdd hist i)
        (v :: r.1, r.2)
      else acceptFresh rest hist
    | none => acceptFresh rest hist

/-- Tier 2 of `_get_autoplay_songs`: filter the fallback search results
against `autoplay_history`, then accept at most the first 5
(`for video in related[:5]`). -/
def autoplay_tier2 (hist : List String) (entries : List Video) :
    List Video × List String :=
  acceptFresh ((search_similar_songs hist entries).take 5) hist

/-- The candidate selection of `_get_autoplay_songs`: without a current
song return nothing; with the AI recommender enabled, accept the first
search hit of each recommendation (`for video in related[:1]`), and fall
back to tier 2 when that accepts nothing.  Returns the accepted videos
and the updated `autoplay_history`. -/
def autoplayAccepted (inp : AutoInput) (st : MusicPlayer) :
    List Video × List String :=
  match st.current with
  | none => ([], st.autoplay_history)
  | some _ =>
    if inp.aiEnabled then
      if (acceptFresh (inp.aiResults.filterMap List.head?) st.autoplay_history).1.isEmpty then
        autoplay_tier2 st.autoplay_history inp.fallbackEntries
      else acceptFresh (inp.aiResults.filterMap List.head?) st.autoplay_history
    else autoplay_tier2 st.autoplay_history inp.fallbackEntries

/-- The `Song` built for an accepted autoplay candidate: empty
`stream_url`, `requester=None`. -/
def videoToSong (v : Video) : Song where
  title := v.title
  url := v.url
  stream_url := ""
  duration := v.duration
  thumbnail := v.thumbnail
  requester := none

/-- `_get_autoplay_songs`: the accepted candidates as `Song`s, together
with the state whose `autoplay_history` now holds the accepted ids. -/
def get_autoplay_songs (inp : AutoInput) (st : MusicPlayer) :
    List Song × MusicPlayer :=
  let r := autoplayAccepted inp st
  (r.1.map videoToSong, { st with autoplay_history := r.2 })

/-- The `autoplay_history` update inside step 1 of `play_next`: when the
finished song has a truthy URL with an extractable video id, `set.add`
the id and evict one element when the size cap is exceeded. -/
def record_autoplay_id (c : Song) (hist : List String) : List String :=
  if c.url ≠ "" then
    match extract_video_id c.url with
    | some vid =>
      if AUTOPLAY_MAX_HISTORY < (setAdd hist vid).length then
        setPop (setAdd hist vid)
      else setAdd hist vid
    | none => hist
  else hist

/-- Step 1 of `play_next`: when a current song exists and the mode is not
single-track loop, append it to `history` (capacity 50) and record its
video id into `autoplay_history`. -/
def record_history (st : MusicPlayer) : MusicPlayer :=
  match st.current with
  | none => st
  | some c =>
    if st.loop_mode ≠ 1 then
      { st with history := dequeAppend HISTORY_MAXLEN st.history c,
                autoplay_history := record_autoplay_id c st.autoplay_history }
    else st

/-- The song-selection core of `play_next` (steps 1-3): records history,
chooses the next song by loop mode / queue / autoplay, and sets
`current`/`is_playing`.  The boolean is `true` when a song was chosen
(the method proceeds to resolve its stream) and `false` on the two
terminal returns that set `current=None`, `is_playing=False`. -/
def select_next (inp : AutoInput) (st0 : MusicPlayer) : MusicPlayer × Bool :=
  let st := record_history st0
  if st.loop_mode = 1 ∧ st.current.isSome then
    ({ st with is_playing := true }, true)
  else
    match st.queue with
    | song :: rest =>
      let q := match st.current with
        | some c => if st.loop_mode = 2 then dequeAppend MAX_QUEUE_SIZE rest c else rest
        | none => rest
      ({ st with queue := q, current := some song, is_playing := true }, true)
    | [] =>
      if st.loop_mode = 2 ∧ st.current.isSome then
        ({ st with is_playing := true }, true)
      else if st.autoplay ∧ st.current.isSome then
        let r := get_autoplay_songs inp st
        match r.1 with
        | [] => ({ r.2 with current := none, is_playing := false }, false)
        | s0 :: srest =>
          match (s0 :: srest).foldl (dequeAppend MAX_QUEUE_SIZE) r.2.queue with
          | song :: qrest =>
            ({ r.2 with queue := qrest, current := some song, is_playing := true,
                        last_autoplay_song := some song }, true)
          | [] => ({ r.2 with current := none, is_playing := false }, false)
      else
        ({ st with current := none, is_playing := false }, false)

/-- One `play_next` invocation in which stream resolution succeeds: the
state after selection (the sink callback re-enters `play_next` later). -/
def play_next_ok (inp : AutoInput) (st : MusicPlayer) : MusicPlayer :=
  (select_next inp st).1

/-- The `play_next` recursion when stream resolution fails for every
chosen song (`data` falsy or an exception at line 442/462): each failed
attempt recurses immediately.  Fuel-indexed: `some fin` when a terminal
state is reached within the fuel, `none` otherwise.  A voice connection
is assumed present (without one the method returns with the chosen song
still current). -/
def runFail (oracle : Nat → AutoInput) : Nat → MusicPlayer → Option MusicPlayer
  | 0, _ => none
  | n + 1, st =>
    let r := select_next (oracle n) st
    if r.2 then runFail oracle n r.1 else some r.1

/-- Iterated successful advances (each track finishing normally). -/
def iterAdvance (oracle : Nat → AutoInput) : Nat → MusicPlayer → MusicPlayer
  | 0, st => st
  | n + 1, st => iterAdvance oracle n (play_next_ok (oracle n) st)

/-- The player operations a command sequence can issue (the data on
`shuf` and `advance` are the oracle outcomes of that call). -/
inductive Op where
  | add (song : Song)
  | prev
  | shuf (shuffled : List Song)
  | clear
  | advance (inp : AutoInput)
  | stop

/-- Apply one operation to the player state. -/
def applyOp (st : MusicPlayer) : Op → MusicPlayer
  | .add song => (add_to_queue song st).2
  | .prev => (previous st).2
  | .shuf l => shuffle l st
  | .clear => clear_queue st
  | .advance inp => play_next_ok inp st
  | .stop => stop st

/-- Run a sequence of operations from the freshly-constructed state. -/
def run (ops : List Op) : MusicPlayer := ops.foldl applyOp init

end MusicPlayer

/-! Concrete songs, videos, states and operation sequences used to
instantiate the theorems below on explicit inputs. -/

/-- A song with a numeric title and no URL. -/
def mkNumSong (n : Nat) : Song :=
  { title := toString n, url := "", stream_url := "", duration := 0 }

/-- A queue holding exactly `MAX_QUEUE_SIZE` songs. -/
def fullQueue : List Song := (List.range MAX_QUEUE_SIZE).map mkNumSong

/-- Oracle data for an advance step that never reaches autoplay, or whose
searches all come back empty. -/
def noInput : AutoInput :=
  { aiEnabled := false, aiResults := [], fallbackEntries := [] }

/-- The constant empty oracle. -/
def noOracle : Nat → AutoInput := fun _ => noInput

/-- A search-result entry with the given id and no URL. -/
def mkVid (i : String) : Video :=
  { id := some i, title := i, url := "", duration := 0 }

/-- Oracle data whose fallback search returns entries with the given ids. -/
def fillInput (ids : List String) : AutoInput :=
  { aiEnabled := false, aiResults := [], fallbackEntries := ids.map mkVid }

/-- A player whose queue is at capacity. -/
def c7state : MusicPlayer := { MusicPlayer.init with queue := fullQueue }

/-- A player at queue capacity with a current song and one history entry. -/
def c10state : MusicPlayer :=
  { MusicPlayer.init with queue := fullQueue, current := some (mkNumSong 200),
                          history := [mkNumSong 300] }

/-- A small player state with queue, current song and history. -/
def c4state : MusicPlayer :=
  { MusicPlayer.init with queue := [mkNumSong 1], current := some (mkNumSong 2),
                          history := [mkNumSong 3, mkNumSong 4] }

/-- Single-track loop with a current song: the state on which failing
resolution recurses forever. -/
def c1loopState : MusicPlayer :=
  { MusicPlayer.init with current := some (mkNumSong 0), loop_mode := 1,
                          is_playing := true, autoplay := false }

/-- Loop off, autoplay off, two queued songs: failing resolution drains
the queue and stops. -/
def c1offState : MusicPlayer :=
  { MusicPlayer.init with queue := [mkNumSong 1, mkNumSong 2],
                          current := some (mkNumSong 0), autoplay := false,
                          is_playing := true }

/-- Autoplay on with a current song and an empty queue. -/
def c3state : MusicPlayer :=
  { MusicPlayer.init with current := some (mkNumSong 7), autoplay := true,
                          is_playing := true }

/-- The §8 autoplay scenario state: empty queue, current song, autoplay
on, loop off. -/
def c8state : MusicPlayer :=
  { MusicPlayer.init with current := some (mkNumSong 9), autoplay := true,
                          is_playing := true }

/-- The §8 autoplay scenario oracle: tier 1 yields nothing, tier 2's
search returns two unseen results. -/
def c8input : AutoInput :=
  { aiEnabled := true, aiResults := [], fallbackEntries := [mkVid "k1", mkVid "k2"] }

/-- Four successful advances on a non-empty queue of no-URL songs. -/
def consume4 : List MusicPlayer.Op :=
  List.replicate 4 (MusicPlayer.Op.advance noInput)

/-- A command sequence from the initial state: one queued song, then
repeated advances whose autoplay fills inject five fresh ids each time
the queue empties.  After the fifth fill `autoplay_history` holds 25
ids. -/
def c6ops : List MusicPlayer.Op :=
  [MusicPlayer.Op.add (mkNumSong 0), MusicPlayer.Op.advance noInput,
   MusicPlayer.Op.advance (fillInput ["b01", "b02", "b03", "b04", "b05"])] ++
  consume4 ++
  [MusicPlayer.Op.advance (fillInput ["b06", "b07", "b08", "b09", "b10"])] ++
  consume4 ++
  [MusicPlayer.Op.advance (fillInput ["b11", "b12", "b13", "b14", "b15"])] ++
  consume4 ++
  [MusicPlayer.Op.advance (fillInput ["b16", "b17", "b18", "b19", "b20"])] ++
  consume4 ++
  [MusicPlayer.Op.advance (fillInput ["b21", "b22", "b23", "b24", "b25"])]

/-- The initial state of the queue-loop cycling scenario: queue `[A,B,C]`,
queue-loop mode, autoplay off, nothing playing yet. -/
def queueLoopStart (A B C : Song) : MusicPlayer :=
  { MusicPlayer.init with queue := [A, B, C], loop_mode := 2, autoplay := false }

/-- The cyclic order `A,B,C,A,B,C,...`. -/
def cyc3 (A B C : Song) (n : Nat) : Song :=
  match n % 3 with
  | 0 => A
  | 1 => B
  | _ => C

open MusicPlayer

set_option maxRecDepth 10000

theorem dequeAppendLeft_head {α : Type} (n : Nat) (x : α) (q : List α) :
    (dequeAppendLeft n x q).head? = some x := by
  unfold dequeAppendLeft
  split <;> rfl

theorem head?_take {α : Type} (n : Nat) (l : List α) :
    (l.take (n + 1)).head? = l.head? := by
  cases l <;> simp

theorem dequeAppend_length_le {α : Type} (n : Nat) (q : List α) (x : α)
    (hn : 0 < n) (h : q.length ≤ n) : (dequeAppend n q x).length ≤ n := by
  unfold dequeAppend
  split <;> simp <;> omega

theorem dequeAppendLeft_length_le {α : Type} (n : Nat) (x : α) (q : List α)
    (hn : 0 < n) (h : q.length ≤ n) : (dequeAppendLeft n x q).length ≤ n := by
  unfold dequeAppendLeft
  split <;> simp <;> omega

theorem dequeOfList_length_le {α : Type} (n : Nat) (l : List α) :
    (dequeOfList n l).length ≤ n := by
  unfold dequeOfList
  simp
  omega

theorem foldl_dequeAppend_length_le {α : Type} (n : Nat) (hn : 0 < n)
    (l : List α) : ∀ q : List α, q.length ≤ n →
    (l.foldl (dequeAppend n) q).length ≤ n := by
  induction l with
  | nil => intro q h; simpa using h
  | cons x rest ih =>
    intro q h
    exact ih (dequeAppend n q x) (dequeAppend_length_le n q x hn h)

theorem record_history_queue (st : MusicPlayer) :
    (record_history st).queue = st.queue := by
  unfold record_history
  split
  · rfl
  · split <;> rfl

theorem record_history_current (st : MusicPlayer) :
    (record_history st).current = st.current := by
  unfold record_history
  split
  · rfl
  · split <;> rfl

theorem record_history_loop_mode (st : MusicPlayer) :
    (record_history st).loop_mode = st.loop_mode := by
  unfold record_history
  split
  · rfl
  · split <;> rfl

theorem record_history_autoplay (st : MusicPlayer) :
    (record_history st).autoplay = st.autoplay := by
  unfold record_history
  split
  · rfl
  · split <;> rfl

/-- C9: `stop()` is idempotent — a second call yields the same observable
state — and the state after `stop()` has an empty queue, empty history,
empty autoplay history, no current song, `is_playing = false` and loop
mode OFF. -/
theorem stop_idempotent_and_resets (st : MusicPlayer) :
    stop (stop st) = stop st ∧
    (stop st).queue = [] ∧
    (stop st).history = [] ∧
    (stop st).autoplay_history = [] ∧
    (stop st).current = none ∧
    (stop st).is_playing = false ∧
    (stop st).loop_mode = 0 :=
  ⟨rfl, rfl, rfl, rfl, rfl, rfl, rfl⟩

/-- C7 (counterexample): with the queue already at capacity,
`add_to_queue` is not rejected — it returns position 100 and changes the
queue contents (the front song is evicted), contradicting the claim that
the rejected call leaves the contents unchanged. -/
theorem add_to_queue_full_not_rejected :
    c7state.queue.length = MAX_QUEUE_SIZE ∧
    (add_to_queue (mkNumSong 100) c7state).1 = MAX_QUEUE_SIZE ∧
    (add_to_queue (mkNumSong 100) c7state).2.queue ≠ c7state.queue ∧
    (add_to_queue (mkNumSong 100) c7state).2.queue.length = MAX_QUEUE_SIZE := by
  decide

/-- C7 (amended): when the queue holds exactly `MAX_QUEUE_SIZE` songs,
`add_to_queue` follows the drop-oldest policy — the front song is evicted,
the new song is appended at the back, the returned position is the
capacity and the length stays at the capacity; when not full it appends
at the back and returns the 1-based position; playback state is never
touched. -/
theorem add_to_queue_policy (song : Song) (st : MusicPlayer) :
    (st.queue.length = MAX_QUEUE_SIZE →
      (add_to_queue song st).1 = MAX_QUEUE_SIZE ∧
      (add_to_queue song st).2.queue = st.queue.tail ++ [song] ∧
      (add_to_queue song st).2.queue.length = MAX_QUEUE_SIZE) ∧
    (st.queue.length < MAX_QUEUE_SIZE →
      (add_to_queue song st).1 = st.queue.length + 1 ∧
      (add_to_queue song st).2.queue = st.queue ++ [song]) ∧
    (add_to_queue song st).2.history = st.history ∧
    (add_to_queue song st).2.current = st.current ∧
    (add_to_queue song st).2.loop_mode = st.loop_mode ∧
    (add_to_queue song st).2.is_playing = st.is_playing ∧
    (add_to_queue song st).2.autoplay_history = st.autoplay_history := by
  have hm : MAX_QUEUE_SIZE = 100 := rfl
  refine ⟨?_, ?_, rfl, rfl, rfl, rfl, rfl⟩
  · intro hfull
    simp only [add_to_queue, dequeAppend]
    rw [if_neg (by omega)]
    refine ⟨?_, ?_, ?_⟩
    · simp [hfull]; omega
    · rw [hfull, hm]
      norm_num [List.drop_one]
    · simp [hfull]; omega
  · intro hlt
    simp only [add_to_queue, dequeAppend]
    rw [if_pos hlt]
    simp

/-- C7 (witness): the amended theorem applied to a concrete full queue. -/
theorem add_to_queue_policy_witness :
    (add_to_queue (mkNumSong 100) c7state).1 = MAX_QUEUE_SIZE ∧
    (add_to_queue (mkNumSong 100) c7state).2.queue
      = c7state.queue.tail ++ [mkNumSong 100] ∧
    (add_to_queue (mkNumSong 100) c7state).2.queue.length = MAX_QUEUE_SIZE :=
  (add_to_queue_policy (mkNumSong 100) c7state).1 (by decide)

/-- C10: when `previous()` succeeds while the queue is at capacity and a
current song exists, the two front-insertions evict the two rearmost
queued songs: the new queue is the recalled history song, then the old
current, then only the first 98 of the old queue. -/
theorem previous_full_queue_evicts (st : MusicPlayer) (c p : Song)
    (hq : st.queue.length = MAX_QUEUE_SIZE)
    (hc : st.current = some c)
    (hp : st.history.getLast? = some p) :
    (previous st).1 = true ∧
    (previous st).2.queue = p :: c :: st.queue.take (MAX_QUEUE_SIZE - 2) ∧
    (previous st).2.queue.length = MAX_QUEUE_SIZE ∧
    (previous st).2.history = st.history.dropLast := by
  have hm : MAX_QUEUE_SIZE = 100 := rfl
  have h1 : ¬ (st.queue.length < MAX_QUEUE_SIZE) := by omega
  simp only [previous, hp, hc, dequeAppendLeft]
  rw [if_neg h1]
  have h2 : ¬ ((c :: st.queue.take (MAX_QUEUE_SIZE - 1)).length < MAX_QUEUE_SIZE) := by
    simp [List.length_take]
    omega
  rw [if_neg h2]
  refine ⟨trivial, ?_, ?_, trivial⟩
  · simp [List.take_take, hm]
  · simp [List.length_take]
    omega

theorem dequeAppendLeft_two_get1 {α : Type} (m : Nat) (p c : α) (q : List α) :
    (dequeAppendLeft (m + 2) p (dequeAppendLeft (m + 2) c q)).get? 1 = some c := by
  have hm1 : m + 2 - 1 = m + 1 := by omega
  unfold dequeAppendLeft
  by_cases hin : q.length < m + 2
  · rw [if_pos hin]
    by_cases hout : (c :: q).length < m + 2
    · rw [if_pos hout]; rfl
    · rw [if_neg hout, hm1, List.take_succ_cons]; rfl
  · rw [if_neg hin, hm1]
    by_cases hout : (c :: q.take (m + 1)).length < m + 2
    · rw [if_pos hout]; rfl
    · rw [if_neg hout, List.take_succ_cons]; rfl

theorem select_next_pop (inp : AutoInput) (st : MusicPlayer) (song : Song)
    (rest : List Song) (hq : st.queue = song :: rest)
    (h : ¬(st.loop_mode = 1 ∧ st.current.isSome)) :
    (select_next inp st).1.current = some song ∧ (select_next inp st).2 = true := by
  have hq' : (record_history st).queue = song :: rest := by
    rw [record_history_queue]; exact hq
  have hl := record_history_loop_mode st
  have hc := record_history_current st
  simp only [select_next]
  rw [if_neg (by rw [hl, hc]; exact h)]
  rw [hq']
  exact ⟨rfl, rfl⟩

/-- C4: `previous()` returns `false` iff the history is empty; when the
history is non-empty it returns `true`, the most recent history entry is
removed from history and sits at the queue front, ahead of the old
current song (which sits at index 1 when present), so whenever the next
advance step pops the queue front the previously-played song becomes
`current`. -/
theorem previous_spec (st : MusicPlayer) :
    ((previous st).1 = false ↔ st.history = []) ∧
    (∀ p, st.history.getLast? = some p →
      (previous st).1 = true ∧
      (previous st).2.queue.head? = some p ∧
      (previous st).2.history = st.history.dropLast ∧
      (∀ c, st.current = some c → (previous st).2.queue.get? 1 = some c) ∧
      (∀ inp, ¬(st.loop_mode = 1 ∧ st.current.isSome) →
        (play_next_ok inp (previous st).2).current = some p)) := by
  cases hp : st.history.getLast? with
  | none =>
    have hh : st.history = [] := List.getLast?_eq_none_iff.mp hp
    constructor
    · simp [previous, hp, hh]
    · intro p hp'
      exact absurd hp' (by simp)
  | some p =>
    have hh : st.history ≠ [] := by
      intro he
      rw [he] at hp
      simp at hp
    constructor
    · simp [previous, hp, hh]
    · intro p' hp'
      have hpp : p' = p := by
        injection hp' with h12
        exact h12.symm
      subst hpp
      have hhead : (previous st).2.queue.head? = some p' := by
        simp only [previous, hp]
        exact dequeAppendLeft_head MAX_QUEUE_SIZE p' _
      have hcons : ∃ tl, (previous st).2.queue = p' :: tl := by
        cases hq : (previous st).2.queue with
        | nil => rw [hq] at hhead; simp at hhead
        | cons a tl =>
          rw [hq] at hhead
          simp at hhead
          exact ⟨tl, by rw [hhead]⟩
      refine ⟨by simp [previous, hp], hhead, by simp [previous, hp], ?_, ?_⟩
      · intro c hc
        simp only [previous, hp, hc]
        have hmax : MAX_QUEUE_SIZE = 98 + 2 := rfl
        rw [hmax]
        exact dequeAppendLeft_two_get1 98 p' c st.queue
      · intro inp hmode
        obtain ⟨tl, hq⟩ := hcons
        have hcur : (previous st).2.current = st.current := by
          simp [previous, hp]
        have hlm : (previous st).2.loop_mode = st.loop_mode := by
          simp [previous, hp]
        exact (select_next_pop inp (previous st).2 p' tl hq
          (by rw [hcur, hlm]; exact hmode)).1

theorem play_next_ok_queue_loop (inp : AutoInput) (st : MusicPlayer)
    (x y z : Song) (hl : st.loop_mode = 2) (hc : st.current = some x)
    (hq : st.queue = [y, z]) :
    (play_next_ok inp st).current = some y ∧
    (play_next_ok inp st).queue = [z, x] ∧
    (play_next_ok inp st).loop_mode = 2 := by
  have hq' : (record_history st).queue = [y, z] := by
    rw [record_history_queue]; exact hq
  have hl' : (record_history st).loop_mode = 2 := by
    rw [record_history_loop_mode]; exact hl
  have hc' : (record_history st).current = some x := by
    rw [record_history_current]; exact hc
  have hdq : dequeAppend MAX_QUEUE_SIZE [z] x = [z, x] := by
    unfold dequeAppend
    rw [if_pos (by norm_num [MAX_QUEUE_SIZE])]
    rfl
  simp only [play_next_ok, select_next]
  rw [if_neg (by rw [hl', hc']; simp)]
  rw [hq']
  simp [hc', hl', hdq]

theorem play_next_ok_pop_first (inp : AutoInput) (st : MusicPlayer)
    (a : Song) (rest : List Song) (hc : st.current = none)
    (hq : st.queue = a :: rest) :
    (play_next_ok inp st).current = some a ∧
    (play_next_ok inp st).queue = rest ∧
    (play_next_ok inp st).loop_mode = st.loop_mode := by
  have hq' : (record_history st).queue = a :: rest := by
    rw [record_history_queue]; exact hq
  have hc' : (record_history st).current = none := by
    rw [record_history_current]; exact hc
  have hl' := record_history_loop_mode st
  simp only [play_next_ok, select_next]
  rw [if_neg (by rw [hc']; simp)]
  rw [hq']
  simp only [hc']
  exact ⟨trivial, trivial, hl'⟩

theorem cyc3_shift (u v w : Song) (k : Nat) :
    cyc3 v w u k = cyc3 u v w (k + 1) := by
  unfold cyc3
  have h : k % 3 = 0 ∨ k % 3 = 1 ∨ k % 3 = 2 := by omega
  rcases h with h | h | h <;> simp [Nat.add_mod, h]

theorem iterAdvance_queue_loop (oracle : Nat → AutoInput) :
    ∀ (n : Nat) (st : MusicPlayer) (u v w : Song),
    st.loop_mode = 2 → st.current = some u → st.queue = [v, w] →
    (iterAdvance oracle n st).current = some (cyc3 u v w n) ∧
    (iterAdvance oracle n st).queue = [cyc3 u v w (n + 1), cyc3 u v w (n + 2)] ∧
    (iterAdvance oracle n st).loop_mode = 2 := by
  intro n
  induction n with
  | zero =>
    intro st u v w hl hc hq
    refine ⟨?_, ?_, ?_⟩
    · simpa [iterAdvance, cyc3] using hc
    · simpa [iterAdvance, cyc3] using hq
    · simpa [iterAdvance] using hl
  | succ n ih =>
    intro st u v w hl hc hq
    have hstep := play_next_ok_queue_loop (oracle n) st u v w hl hc hq
    have hrec := ih (play_next_ok (oracle n) st) v w u hstep.2.2 hstep.1 hstep.2.1
    have e1 : cyc3 v w u n = cyc3 u v w (n + 1) := cyc3_shift u v w n
    have e2 : cyc3 v w u (n + 1) = cyc3 u v w (n + 2) := cyc3_shift u v w (n + 1)
    have e3 : cyc3 v w u (n + 2) = cyc3 u v w (n + 3) := cyc3_shift u v w (n + 2)
    simp only [iterAdvance]
    refine ⟨?_, ?_, hrec.2.2⟩
    · rw [hrec.1, e1]
    · rw [hrec.2.1, e2, e3]

/-- C2: starting from queue `[A,B,C]` in queue-loop mode with autoplay
off and nothing playing, every advance step with successful resolution
selects current songs in the cyclic order `A,B,C,A,B,C,...`, and after
each step the queue holds exactly the next two songs of the cycle. -/
theorem queue_loop_cycles (A B C : Song) (oracle : Nat → AutoInput) (n : Nat) :
    (iterAdvance oracle (n + 1) (queueLoopStart A B C)).current
      = some (cyc3 A B C n) ∧
    (iterAdvance oracle (n + 1) (queueLoopStart A B C)).queue
      = [cyc3 A B C (n + 1), cyc3 A B C (n + 2)] := by
  have h0 : (queueLoopStart A B C).current = none := rfl
  have hq0 : (queueLoopStart A B C).queue = A :: [B, C] := rfl
  have hstep := play_next_ok_pop_first (oracle n) (queueLoopStart A B C) A [B, C] h0 hq0
  have hl1 : (play_next_ok (oracle n) (queueLoopStart A B C)).loop_mode = 2 := by
    rw [hstep.2.2]; rfl
  have hrec := iterAdvance_queue_loop oracle n
    (play_next_ok (oracle n) (queueLoopStart A B C)) A B C hl1 hstep.1 hstep.2.1
  simp only [iterAdvance]
  exact ⟨hrec.1, hrec.2.1⟩

theorem get_autoplay_songs_queue (inp : AutoInput) (st : MusicPlayer) :
    (get_autoplay_songs inp st).2.queue = st.queue := rfl

theorem select_next_queue_le (inp : AutoInput) (st : MusicPlayer)
    (h : st.queue.length ≤ MAX_QUEUE_SIZE) :
    (select_next inp st).1.queue.length ≤ MAX_QUEUE_SIZE := by
  have hmax : 0 < MAX_QUEUE_SIZE := by norm_num [MAX_QUEUE_SIZE]
  have hrq : (record_history st).queue = st.queue := record_history_queue st
  simp only [select_next]
  split
  · simpa [hrq] using h
  · split
    · rename_i song rest hq
      have h2 : st.queue = song :: rest := by rw [← hrq, hq]
      rw [h2] at h
      simp only [List.length_cons] at h
      split
      · split
        · exact dequeAppend_length_le _ _ _ hmax (by omega)
        · show rest.length ≤ MAX_QUEUE_SIZE
          omega
      · show rest.length ≤ MAX_QUEUE_SIZE
        omega
    · rename_i hq0
      split
      · show (record_history st).queue.length ≤ MAX_QUEUE_SIZE
        simp [hq0]
      · split
        · split
          · show (get_autoplay_songs inp (record_history st)).2.queue.length
              ≤ MAX_QUEUE_SIZE
            rw [get_autoplay_songs_queue, hq0]
            simp
          · rename_i s0 srest hsongs
            have hbase : (get_autoplay_songs inp (record_history st)).2.queue.length
                ≤ MAX_QUEUE_SIZE := by
              rw [get_autoplay_songs_queue, hq0]
              simp
            have hfold := foldl_dequeAppend_length_le MAX_QUEUE_SIZE hmax
              (s0 :: srest) _ hbase
            split
            · rename_i song qrest hfq
              rw [hfq] at hfold
              simp only [List.length_cons] at hfold
              show qrest.length ≤ MAX_QUEUE_SIZE
              omega
            · show (get_autoplay_songs inp (record_history st)).2.queue.length
                ≤ MAX_QUEUE_SIZE
              exact hbase
        · show (record_history st).queue.length ≤ MAX_QUEUE_SIZE
          simp [hq0]

theorem applyOp_queue_le (st : MusicPlayer) (op : Op)
    (h : st.queue.length ≤ MAX_QUEUE_SIZE) :
    (applyOp st op).queue.length ≤ MAX_QUEUE_SIZE := by
  have hmax : 0 < MAX_QUEUE_SIZE := by norm_num [MAX_QUEUE_SIZE]
  cases op with
  | add s =>
    simp only [applyOp, add_to_queue]
    exact dequeAppend_length_le _ _ _ hmax h
  | prev =>
    simp only [applyOp, previous]
    split
    · exact h
    · have h1 : (match st.current with
          | some c => dequeAppendLeft MAX_QUEUE_SIZE c st.queue
          | none => st.queue).length ≤ MAX_QUEUE_SIZE := by
        cases st.current with
        | none => exact h
        | some c => exact dequeAppendLeft_length_le _ _ _ hmax h
      exact dequeAppendLeft_length_le _ _ _ hmax h1
  | shuf l =>
    simp only [applyOp, shuffle]
    exact dequeOfList_length_le _ _
  | clear =>
    simp [applyOp, clear_queue]
  | advance inp =>
    exact select_next_queue_le inp st h
  | stop =>
    simp [applyOp, stop]

theorem foldl_applyOp_queue_le (ops : List Op) :
    ∀ st : MusicPlayer, st.queue.length ≤ MAX_QUEUE_SIZE →
    (ops.foldl applyOp st).queue.length ≤ MAX_QUEUE_SIZE := by
  induction ops with
  | nil => intro st h; simpa using h
  | cons op rest ih =>
    intro st h
    exact ih (applyOp st op) (applyOp_queue_le st op h)

/-- C5: starting from the freshly-constructed player, no sequence of
operations (enqueue, previous, shuffle, clear, advance, stop) can ever
make the queue longer than `MAX_QUEUE_SIZE = 100`. -/
theorem run_queue_le (ops : List Op) :
    (run ops).queue.length ≤ MAX_QUEUE_SIZE :=
  foldl_applyOp_queue_le ops init (by norm_num [init, MAX_QUEUE_SIZE])

theorem acceptFresh_sound (vs : List Video) :
    ∀ hist : List String,
    (∀ v ∈ (acceptFresh vs hist).1,
      ∃ i, v.id = some i ∧ i ≠ "" ∧ i ∉ hist) ∧
    ((acceptFresh vs hist).1.filterMap Video.id).Nodup := by
  induction vs with
  | nil =>
    intro hist
    constructor
    · intro v hv
      simp [acceptFresh] at hv
    · simp [acceptFresh]
  | cons v rest ih =>
    intro hist
    cases hid : v.id with
    | none =>
      simp only [acceptFresh, hid]
      exact ih hist
    | some i =>
      by_cases hfresh : i ≠ "" ∧ i ∉ hist
      · simp only [acceptFresh, hid, if_pos hfresh]
        have hset : setAdd hist i = hist ++ [i] := by
          unfold setAdd
          rw [if_neg hfresh.2]
        have ihr := ih (setAdd hist i)
        constructor
        · intro w hw
          simp only [List.mem_cons] at hw
          rcases hw with rfl | hw
          · exact ⟨i, hid, hfresh.1, hfresh.2⟩
          · obtain ⟨j, hj1, hj2, hj3⟩ := ihr.1 w hw
            refine ⟨j, hj1, hj2, fun hmem => ?_⟩
            rw [hset] at hj3
            exact hj3 (List.mem_append.mpr (Or.inl hmem))
        · simp only [List.filterMap_cons, hid]
          refine List.nodup_cons.mpr ⟨?_, ihr.2⟩
          intro hmem
          obtain ⟨w, hw, hwid⟩ := List.mem_filterMap.mp hmem
          obtain ⟨j, hj1, hj2, hj3⟩ := ihr.1 w hw
          rw [hj1] at hwid
          injection hwid with hji
          apply hj3
          rw [hji, hset]
          simp
      · simp only [acceptFresh, hid, if_neg hfresh]
        exact ih hist

theorem autoplayAccepted_sound (inp : AutoInput) (st : MusicPlayer) :
    (∀ v ∈ (autoplayAccepted inp st).1,
      ∃ i, v.id = some i ∧ i ≠ "" ∧ i ∉ st.autoplay_history) ∧
    ((autoplayAccepted inp st).1.filterMap Video.id).Nodup := by
  unfold autoplayAccepted
  split
  · constructor
    · intro v hv
      simp at hv
    · simp
  · split
    · split
      · unfold autoplay_tier2
        exact acceptFresh_sound _ _
      · exact acceptFresh_sound _ _
    · unfold autoplay_tier2
      exact acceptFresh_sound _ _

theorem select_next_empty_autoplay_stops (inp : AutoInput) (st : MusicPlayer)
    (hq : st.queue = [])
    (h1 : ¬(st.loop_mode = 1 ∧ st.current.isSome))
    (h2 : ¬(st.loop_mode = 2 ∧ st.current.isSome))
    (hempty : (get_autoplay_songs inp (record_history st)).1 = []) :
    (play_next_ok inp st).current = none ∧
    (play_next_ok inp st).is_playing = false := by
  have hq' : (record_history st).queue = [] := by
    rw [record_history_queue]
    exact hq
  simp only [play_next_ok, select_next]
  rw [if_neg (by rw [record_history_loop_mode, record_history_current]; exact h1)]
  rw [hq']
  rw [if_neg (by rw [record_history_loop_mode, record_history_current]; exact h2)]
  by_cases h3 : (record_history st).autoplay = true ∧ (record_history st).current.isSome
  · rw [if_pos h3, hempty]
    exact ⟨rfl, rfl⟩
  · rw [if_neg h3]
    exact ⟨rfl, rfl⟩

/-- C3: the autoplay orchestration never accepts a candidate whose video
id is already in `autoplay_history` at acceptance time — the accepted ids
avoid the initial exclusion set and are pairwise distinct within one
batch — and whenever it produces an empty list, the advance step
transitions to `current = none`, `is_playing = false` (the operation is a
total function, so it cannot raise). -/
theorem autoplay_fresh_and_empty_stops :
    (∀ (inp : AutoInput) (st : MusicPlayer),
      (∀ v ∈ (autoplayAccepted inp st).1,
        ∃ i, v.id = some i ∧ i ≠ "" ∧ i ∉ st.autoplay_history) ∧
      ((autoplayAccepted inp st).1.filterMap Video.id).Nodup) ∧
    (∀ (inp : AutoInput) (st : MusicPlayer),
      st.queue = [] →
      ¬(st.loop_mode = 1 ∧ st.current.isSome) →
      ¬(st.loop_mode = 2 ∧ st.current.isSome) →
      (get_autoplay_songs inp (record_history st)).1 = [] →
      (play_next_ok inp st).current = none ∧
      (play_next_ok inp st).is_playing = false) :=
  ⟨autoplayAccepted_sound,
   fun inp st hq h1 h2 he =>
     select_next_empty_autoplay_stops inp st hq h1 h2 he⟩

/-- C3 (witness): with autoplay enabled, an empty queue, a current song
and an oracle whose searches all come back empty, the advance step stops
cleanly. -/
theorem autoplay_fresh_and_empty_stops_witness :
    (∃ i, (mkVid "k1").id = some i ∧ i ≠ "" ∧ i ∉ c3state.autoplay_history) ∧
    ((autoplayAccepted c8input c3state).1.filterMap Video.id).Nodup ∧
    (play_next_ok noInput c3state).current = none ∧
    (play_next_ok noInput c3state).is_playing = false :=
  ⟨(autoplay_fresh_and_empty_stops.1 c8input c3state).1 (mkVid "k1") (by decide),
   (autoplay_fresh_and_empty_stops.1 c8input c3state).2,
   (autoplay_fresh_and_empty_stops.2 noInput c3state (by decide) (by decide)
     (by decide) (by decide)).1,
   (autoplay_fresh_and_empty_stops.2 noInput c3state (by decide) (by decide)
     (by decide) (by decide)).2⟩

theorem get_autoplay_songs_fst (inp : AutoInput) (st : MusicPlayer) :
    (get_autoplay_songs inp st).1 = (autoplayAccepted inp st).1.map videoToSong :=
  rfl

theorem get_autoplay_songs_marks (inp : AutoInput) (st : MusicPlayer) :
    ∀ s ∈ (get_autoplay_songs inp st).1,
    s.requester = none ∧ s.stream_url = "" := by
  intro s hs
  rw [get_autoplay_songs_fst] at hs
  obtain ⟨v, hv, rfl⟩ := List.mem_map.mp hs
  exact ⟨rfl, rfl⟩

theorem setAdd_not_mem (hist : List String) (i j : String)
    (hj : j ∉ hist) (hne : j ≠ i) : j ∉ setAdd hist i := by
  unfold setAdd
  split
  · exact hj
  · simp [hj, hne]

/-- C8: in the §8 scenario — empty queue, current song, autoplay on, loop
off, tier 1 yielding no candidates and tier 2's search returning exactly
two unseen (distinct, truthy-id) results — one advance step leaves the
queue holding exactly one song and makes the first suggestion current
with `requester = none`; moreover every song the autoplay orchestration
produces has `requester = none` and an empty `stream_url`. -/
theorem autoplay_scenario (inp : AutoInput) (st : MusicPlayer) (x : Song)
    (v1 v2 : Video) (i1 i2 : String)
    (hq : st.queue = [])
    (hc : st.current = some x)
    (hap : st.autoplay = true)
    (hl : st.loop_mode = 0)
    (hai : inp.aiResults = [])
    (hfb : inp.fallbackEntries = [v1, v2])
    (hv1 : v1.id = some i1) (hv2 : v2.id = some i2)
    (hi1 : i1 ≠ "") (hi2 : i2 ≠ "")
    (hn1 : i1 ∉ (record_history st).autoplay_history)
    (hn2 : i2 ∉ (record_history st).autoplay_history)
    (hne : i2 ≠ i1) :
    (play_next_ok inp st).queue.length = 1 ∧
    (play_next_ok inp st).current = some (videoToSong v1) ∧
    (videoToSong v1).requester = none ∧
    (∀ (inp2 : AutoInput) (st2 : MusicPlayer),
      ∀ s ∈ (get_autoplay_songs inp2 st2).1,
      s.requester = none ∧ s.stream_url = "") := by
  have hq' : (record_history st).queue = [] := by
    rw [record_history_queue]; exact hq
  have hc' : (record_history st).current = some x := by
    rw [record_history_current]; exact hc
  have hap' : (record_history st).autoplay = true := by
    rw [record_history_autoplay]; exact hap
  have hl' : (record_history st).loop_mode = 0 := by
    rw [record_history_loop_mode]; exact hl
  have hfilter : search_similar_songs (record_history st).autoplay_history
      [v1, v2] = [v1, v2] := by
    unfold search_similar_songs
    simp [hv1, hv2, hi1, hi2, hn1, hn2]
  have haccept : (acceptFresh [v1, v2]
      (record_history st).autoplay_history).1 = [v1, v2] := by
    simp only [acceptFresh, hv1, hv2]
    rw [if_pos ⟨hi1, hn1⟩,
        if_pos ⟨hi2, setAdd_not_mem _ i1 i2 hn2 hne⟩]
  have hacc : (autoplayAccepted inp (record_history st)).1 = [v1, v2] := by
    unfold autoplayAccepted
    rw [hc']
    have htier2 : (autoplay_tier2 (record_history st).autoplay_history
        inp.fallbackEntries).1 = [v1, v2] := by
      unfold autoplay_tier2
      rw [hfb, hfilter]
      simpa using haccept
    by_cases hai2 : inp.aiEnabled = true
    · rw [if_pos hai2, hai]
      simp only [List.filterMap_nil, acceptFresh, List.isEmpty_nil, if_true]
      exact htier2
    · rw [if_neg hai2]
      exact htier2
  have hsongs : (get_autoplay_songs inp (record_history st)).1
      = [videoToSong v1, videoToSong v2] := by
    rw [get_autoplay_songs_fst, hacc]
    rfl
  have hbase : (get_autoplay_songs inp (record_history st)).2.queue = [] := by
    rw [get_autoplay_songs_queue]
    exact hq'
  have hfold : [videoToSong v1, videoToSong v2].foldl
      (dequeAppend MAX_QUEUE_SIZE)
      (get_autoplay_songs inp (record_history st)).2.queue
      = [videoToSong v1, videoToSong v2] := by
    rw [hbase]
    show dequeAppend MAX_QUEUE_SIZE
      (dequeAppend MAX_QUEUE_SIZE [] (videoToSong v1)) (videoToSong v2) = _
    unfold dequeAppend
    norm_num [MAX_QUEUE_SIZE]
  refine ⟨?_, ?_, rfl, get_autoplay_songs_marks⟩
  all_goals
    simp only [play_next_ok, select_next]
    rw [if_neg (by simp [record_history_loop_mode, hl])]
    rw [hq']
    dsimp only
    rw [if_neg (by simp [record_history_loop_mode, hl])]
    rw [if_pos ⟨hap', by simp [hc']⟩]
    rw [hsongs]
    dsimp only
    rw [hfold]
    try dsimp only
    try rfl
/-- C8 (witness): the scenario theorem applied to a concrete state and
two concrete unseen search results. -/
theorem autoplay_scenario_witness :
    (play_next_ok c8input c8state).queue.length = 1 ∧
    (play_next_ok c8input c8state).current = some (videoToSong (mkVid "k1")) ∧
    (videoToSong (mkVid "k1")).requester = none := by
  have h := autoplay_scenario c8input c8state (mkNumSong 9)
    (mkVid "k1") (mkVid "k2") "k1" "k2"
    (by decide) (by decide) (by decide) (by decide) (by decide) (by decide)
    (by decide) (by decide) (by decide) (by decide) (by decide) (by decide)
    (by decide)
  exact ⟨h.1, h.2.1, h.2.2.1⟩

theorem select_next_loop_off_pop (inp : AutoInput) (st : MusicPlayer)
    (a : Song) (rest : List Song)
    (hl : st.loop_mode = 0) (hq : st.queue = a :: rest) :
    select_next inp st =
      ({ (record_history st) with
          queue := rest,
          current := some a,
          is_playing := true }, true) := by
  have hq' : (record_history st).queue = a :: rest := by
    rw [record_history_queue]; exact hq
  have hl' : (record_history st).loop_mode = 0 := by
    rw [record_history_loop_mode]; exact hl
  simp only [select_next]
  rw [if_neg (by simp [hl'])]
  rw [hq']
  dsimp only
  cases hcur : (record_history st).current with
  | none => rfl
  | some c =>
    dsimp only
    rw [if_neg (by simp [hl'])]

theorem select_next_loop_off_empty (inp : AutoInput) (st : MusicPlayer)
    (hl : st.loop_mode = 0) (hap : st.autoplay = false) (hq : st.queue = []) :
    (select_next inp st).2 = false ∧
    (select_next inp st).1.current = none ∧
    (select_next inp st).1.is_playing = false := by
  have hq' : (record_history st).queue = [] := by
    rw [record_history_queue]; exact hq
  have hl' : (record_history st).loop_mode = 0 := by
    rw [record_history_loop_mode]; exact hl
  have hap' : (record_history st).autoplay = false := by
    rw [record_history_autoplay]; exact hap
  simp only [select_next]
  rw [if_neg (by simp [hl'])]
  rw [hq']
  dsimp only
  rw [if_neg (by simp [hl'])]
  rw [if_neg (by simp [hap'])]
  exact ⟨rfl, rfl, rfl⟩

theorem runFail_loop_off_aux (q : List Song) :
    ∀ (oracle : Nat → AutoInput) (st : MusicPlayer),
    st.queue = q → st.loop_mode = 0 → st.autoplay = false →
    ∃ fin, runFail oracle (q.length + 1) st = some fin ∧
      fin.current = none ∧ fin.is_playing = false := by
  induction q with
  | nil =>
    intro oracle st hq hl hap
    have ht := select_next_loop_off_empty (oracle 0) st hl hap hq
    refine ⟨(select_next (oracle 0) st).1, ?_, ht.2.1, ht.2.2⟩
    simp [runFail, ht.1]
  | cons a rest ih =>
    intro oracle st hq hl hap
    have hstep := select_next_loop_off_pop (oracle (rest.length + 1)) st a rest hl hq
    have hl1 : ({ (record_history st) with
        queue := rest,
        current := some a,
        is_playing := true } : MusicPlayer).loop_mode = 0 := by
      show (record_history st).loop_mode = 0
      rw [record_history_loop_mode]; exact hl
    have hap1 : ({ (record_history st) with
        queue := rest,
        current := some a,
        is_playing := true } : MusicPlayer).autoplay = false := by
      show (record_history st).autoplay = false
      rw [record_history_autoplay]; exact hap
    obtain ⟨fin, hrun, h1, h2⟩ := ih oracle
      { (record_history st) with
        queue := rest,
        current := some a,
        is_playing := true } rfl hl1 hap1
    refine ⟨fin, ?_, h1, h2⟩
    show runFail oracle (rest.length + 1 + 1) st = some fin
    simp only [runFail]
    rw [hstep]
    simpa using hrun

/-- C1 (amended): when `loop_mode = OFF` and autoplay is disabled, the
`play_next` recursion under permanently failing stream resolution
terminates within `queue.length + 1` attempts, ending with
`current = none` and `is_playing = false` (each failed attempt pops one
song, so the queue strictly shrinks); with `loop_mode = TRACK` or `QUEUE`
(or autoplay continually supplying songs) the retry does not shrink the
remaining candidates and the recursion never reaches that state. -/
theorem runFail_terminates_loop_off (oracle : Nat → AutoInput)
    (st : MusicPlayer) (hl : st.loop_mode = 0) (hap : st.autoplay = false) :
    ∃ fin, runFail oracle (st.queue.length + 1) st = some fin ∧
      fin.current = none ∧ fin.is_playing = false :=
  runFail_loop_off_aux st.queue oracle st rfl hl hap

/-- C1 (witness): the amended termination theorem applied to a concrete
state with two queued songs. -/
theorem runFail_terminates_loop_off_witness :
    ∃ fin, runFail noOracle (c1offState.queue.length + 1) c1offState
        = some fin ∧
      fin.current = none ∧ fin.is_playing = false :=
  runFail_terminates_loop_off noOracle c1offState (by decide) (by decide)

theorem runFail_track_loop_none :
    ∀ n, runFail noOracle n c1loopState = none := by
  intro n
  induction n with
  | zero => rfl
  | succ n ih =>
    have hsel : select_next noInput c1loopState = (c1loopState, true) := by decide
    show runFail noOracle (n + 1) c1loopState = none
    simp only [runFail]
    rw [show noOracle n = noInput from rfl, hsel]
    simpa using ih

/-- C1 (counterexample): in single-track loop mode with a current song,
one failed-resolution retry leaves the state exactly unchanged — nothing
decreases — and the recursion never reaches a stopped state, for any
amount of fuel: the claimed termination fails for `loop_mode = TRACK`. -/
theorem play_next_fail_track_loop_diverges :
    select_next noInput c1loopState = (c1loopState, true) ∧
    ¬ ∃ n fin, runFail noOracle n c1loopState = some fin := by
  refine ⟨by decide, ?_⟩
  rintro ⟨n, fin, hfin⟩
  rw [runFail_track_loop_none n] at hfin
  exact Option.noConfusion hfin

theorem record_autoplay_id_bound (c : Song) (hist : List String) :
    (record_autoplay_id c hist).length
      ≤ max hist.length AUTOPLAY_MAX_HISTORY := by
  have hmax : AUTOPLAY_MAX_HISTORY = 20 := rfl
  unfold record_autoplay_id
  split
  · split
    · rename_i vid hvid
      have hadd : (setAdd hist vid).length ≤ hist.length + 1 := by
        unfold setAdd
        split <;> simp
      split
      · rename_i hgt
        unfold setPop
        simp only [List.length_tail]
        omega
      · rename_i hle
        omega
    · omega
  · omega

/-- C6 (counterexample): a concrete command sequence from the initial
state — queue one song, then let autoplay refill the emptying queue five
times with five fresh suggestions each — leaves 25 ids in
`autoplay_history`, exceeding the configured bound of
`AUTOPLAY_MAX_HISTORY = 20`: the insertions performed while accepting
autoplay candidates are not capped. -/
theorem autoplay_history_exceeds_bound :
    (run c6ops).autoplay_history.length = 25 ∧
    AUTOPLAY_MAX_HISTORY < (run c6ops).autoplay_history.length := by
  decide

/-- C6 (amended): only the insertion performed by `play_next` step 1
(recording the finished song's id) is capped: it never pushes the size of
`autoplay_history` above `max` of its previous size and
`AUTOPLAY_MAX_HISTORY`.  The insertions performed while accepting
autoplay candidates are uncapped and can exceed the bound. -/
theorem record_history_autoplay_bound (st : MusicPlayer) :
    (record_history st).autoplay_history.length
      ≤ max st.autoplay_history.length AUTOPLAY_MAX_HISTORY := by
  unfold record_history
  split
  · omega
  · split
    · exact record_autoplay_id_bound _ st.autoplay_history
    · omega

/-- C4 (witness): the `previous()` contract applied to a concrete state
with two history entries, a current song and a queued song. -/
theorem previous_spec_witness :
    (previous c4state).1 = true ∧
    (previous c4state).2.queue.head? = some (mkNumSong 4) ∧
    (previous c4state).2.history = c4state.history.dropLast ∧
    (previous c4state).2.queue.get? 1 = some (mkNumSong 2) ∧
    (play_next_ok noInput (previous c4state).2).current = some (mkNumSong 4) := by
  have h := (previous_spec c4state).2 (mkNumSong 4) (by decide)
  exact ⟨h.1, h.2.1, h.2.2.1, h.2.2.2.1 (mkNumSong 2) (by decide),
         h.2.2.2.2 noInput (by decide)⟩

/-- C10 (witness): the eviction theorem applied to a concrete at-capacity
state. -/
theorem previous_full_queue_evicts_witness :
    (previous c10state).1 = true ∧
    (previous c10state).2.queue
      = mkNumSong 300 :: mkNumSong 200 :: c10state.queue.take (MAX_QUEUE_SIZE - 2) ∧
    (previous c10state).2.queue.length = MAX_QUEUE_SIZE ∧
    (previous c10state).2.history = c10state.history.dropLast :=
  previous_full_queue_evicts c10state (mkNumSong 200) (mkNumSong 300)
    (by decide) (by decide) (by decide)

end DiscordMusicBot
